import Mathlib

/-!
Verification development for the resilient paginated-fetch engine of the
99acres scraper (`comprehensive_city_scraper.py`).

The Python source is shallowly embedded below.  Records are kept opaque
(a type parameter `α`); machine-level concerns (HTTP transport, JSON
text) are abstracted into oracle functions, exactly at the boundaries the
source delegates to (`fetch_with_retry` returning an optional response,
the regex/`json.loads` stage returning optional parsed data).  All state
of `scrape_city_property_type` is threaded explicitly, and its observable
effects (batch dispatches, `save_progress` checkpoint writes,
intermediate-data saves) are collected as an event trace.
-/

namespace Scraper

/-- Result tuple of `fetch_single_page`
(`page_num, properties, current_page, total_pages`). -/
structure PageRes (α : Type) where
  page : Nat
  props : List α
  curPage : Nat
  totalPages : Nat
deriving DecidableEq, Repr

/-- The fields of `window.__initialData__` that
`extract_properties_from_html` (lines 315-352) inspects, after the
regex/`json.loads` stage succeeded.  `props = none` models a payload in
which `srp.pageData.properties` is absent; `pgTotal`, `pgCurrent` are
`srp.pageData.pagination.totalPages` / `.currentPage`; `altTotal` and
`altTotal2` are the fallback paths `srp.pagination.totalPages` and
`srp.pagination.total_pages`. -/
structure ParsedData (α : Type) where
  props : Option (List α)
  pgTotal : Option Nat
  pgCurrent : Option Nat
  altTotal : Option Nat
  altTotal2 : Option Nat
deriving DecidableEq, Repr

/-- `extract_properties_from_html` (lines 315-352).  The argument is the
outcome of the regex + `json.loads` stage: `none` when that stage fails
(the `except` clause catches everything, line 349), `some d` when it
yields parsed data `d`.  The function is total: the Python body never
raises (every failure path falls through to `return [], 1, 1`). -/
def extract_properties_from_html {α : Type} (h : Option (ParsedData α)) :
    List α × Nat × Nat :=
  match h with
  | none => ([], 1, 1)
  | some d =>
    match d.props with
    | none => ([], 1, 1)
    | some properties =>
      let currentPage := d.pgCurrent.getD 1
      let totalFound : Option Nat :=
        match d.pgTotal with
        | some t => some t
        | none =>
          match d.altTotal with
          | some t => some t
          | none => d.altTotal2
      let totalPages : Nat :=
        match totalFound with
        | some t => t
        | none => if 25 ≤ properties.length then 999 else 1
      (properties, currentPage, totalPages)

/-- One attempt of `fetch_single_page`'s retry loop, as seen from the
outside: `att i = none` models `fetch_with_retry` returning `None` on
attempt `i`; `att i = some h` models a 200 response whose HTML parses to
`h` (which is itself `Option (ParsedData α)`, the input of
`extract_properties_from_html`). -/
def AttemptOracle (α : Type) := Nat → Option (Option (ParsedData α))

/-- The retry loop of `fetch_single_page` (lines 396-428).  `idx` is the
index of the next attempt, `fuel` the number of attempts still allowed
(`max_retries_per_page - page_retry_count`); the `fuel = 0` case mirrors
the unreachable final `return page_num, [], 1, 1` of the Python body. -/
def fspGo {α : Type} (att : AttemptOracle α) (pageNum : Nat) :
    Nat → Nat → PageRes α
  | _, 0 => ⟨pageNum, [], 1, 1⟩
  | idx, fuel + 1 =>
    match att idx with
    | none =>
      if fuel = 0 then ⟨pageNum, [], 1, 1⟩
      else fspGo att pageNum (idx + 1) fuel
    | some html =>
      let e := extract_properties_from_html html
      if e.1.isEmpty then
        if fuel = 0 then ⟨pageNum, [], e.2.1, e.2.2⟩
        else fspGo att pageNum (idx + 1) fuel
      else ⟨pageNum, e.1, e.2.1, e.2.2⟩

/-- `fetch_single_page` (lines 393-429): up to `max_retries_per_page = 5`
attempts. -/
def fetch_single_page {α : Type} (att : AttemptOracle α) (pageNum : Nat) :
    PageRes α :=
  fspGo att pageNum 0 5

/-- The `pages_to_scrape` construction (lines 461-473): starting from
candidate page `cp`, collect up to `n` pages, stopping early at the
`max_pages` ceiling or at a known total-pages estimate (`est < 999`). -/
def buildPages (maxPages : Option Nat) (est : Nat) : Nat → Nat → List Nat
  | _, 0 => []
  | cp, n + 1 =>
    if (match maxPages with | some m => decide (m < cp) | none => false) then []
    else if est < 999 ∧ est < cp then []
    else cp :: buildPages maxPages est (cp + 1) n

/-- The candidate page set of one batch (`concurrent_pages = 5`). -/
def pagesToScrape (maxPages : Option Nat) (est page : Nat) : List Nat :=
  buildPages maxPages est page 5

/-- Comparison by page number, the sort key of
`batch_results.sort(key=lambda x: x[0])` (line 510). -/
def pageLE {α : Type} (a b : PageRes α) : Prop :=
  a.page ≤ b.page

instance {α : Type} : DecidableRel (pageLE (α := α)) :=
  fun a b => Nat.decLe a.page b.page

instance {α : Type} : IsTotal (PageRes α) pageLE :=
  ⟨fun a b => Nat.le_total a.page b.page⟩

instance {α : Type} : IsTrans (PageRes α) pageLE :=
  ⟨fun _ _ _ => Nat.le_trans⟩

/-- `batch_results.sort(key=lambda x: x[0])` (line 510): Python's
`list.sort` is a stable sort by the key; it is modelled by a stable
insertion sort on the page number. -/
def sortBatch {α : Type} (rs : List (PageRes α)) : List (PageRes α) :=
  List.insertionSort pageLE rs

/-- Accumulators of the result-processing loop (lines 513-529):
`batch_properties`, `empty_pages_in_batch`, `pages_with_properties` and
the updated `total_pages_estimate`. -/
structure ProcOut (α : Type) where
  batchProps : List α
  emptyPages : Nat
  withProps : Nat
  est : Nat
deriving DecidableEq, Repr

/-- The `for page_num, properties, current_page, total_pages in
batch_results` loop (lines 517-529), processing results left to right:
a result with records extends `batch_properties` and may refine the
total-pages estimate (only while it is still the 999 sentinel, and only
from a reported total `< 999`); a result without records only bumps
`empty_pages_in_batch`. -/
def processResults {α : Type} : List (PageRes α) → Nat → ProcOut α
  | [], est => ⟨[], 0, 0, est⟩
  | r :: rs, est =>
    if r.props.isEmpty then
      let o := processResults rs est
      ⟨o.batchProps, o.emptyPages + 1, o.withProps, o.est⟩
    else
      let est' := if est = 999 ∧ r.totalPages < 999 then r.totalPages else est
      let o := processResults rs est'
      ⟨r.props ++ o.batchProps, o.emptyPages, o.withProps + 1, o.est⟩

/-- Outcome of the batch-retry loop (lines 482-545): the last attempt's
sorted `batch_results`, what was appended to `all_properties` (`[]` when
the loop gave up after exhausting its retries), the updated estimate,
the last attempt's `empty_pages_in_batch`, and how many times the batch
was dispatched. -/
structure BatchOut (α : Type) where
  results : List (PageRes α)
  added : List α
  est : Nat
  emptyPages : Nat
  attempts : Nat
deriving DecidableEq, Repr

/-- The `while batch_retry_count <= max_batch_retries and not
batch_successful` loop (lines 482-545).  `fetch a p` is the `PageRes`
that `fetch_single_page` produces for page `p` on batch attempt `a`;
`page` is the batch's starting page (the loop variable `page`); `rl` is
the number of batch retries still allowed (initially
`max_batch_retries = 2`).  An attempt succeeds when some page yielded
records or `page > 100`; only then is `batch_properties` kept. -/
def runBatch {α : Type} (fetch : Nat → Nat → PageRes α) (pages : List Nat)
    (page : Nat) : Nat → Nat → Nat → BatchOut α
  | est, a, 0 =>
    let rs := sortBatch (pages.map (fetch a))
    let o := processResults rs est
    if 0 < o.withProps ∨ 100 < page then
      ⟨rs, o.batchProps, o.est, o.emptyPages, a + 1⟩
    else
      ⟨rs, [], o.est, o.emptyPages, a + 1⟩
  | est, a, rl + 1 =>
    let rs := sortBatch (pages.map (fetch a))
    let o := processResults rs est
    if 0 < o.withProps ∨ 100 < page then
      ⟨rs, o.batchProps, o.est, o.emptyPages, a + 1⟩
    else
      runBatch fetch pages page o.est (a + 1) rl

/-- Observable effects of `scrape_city_property_type`: a batch of pages
dispatched to the pool (with the number of dispatch attempts), a
`save_progress` checkpoint write (lines 625-642; its `current_page` and
`total_properties_so_far` fields), and a `save_intermediate_data` write
(lines 601-623; property count and page range). -/
inductive Ev (α : Type) where
  | batch (pages : List Nat) (attempts : Nat)
  | saveProgress (currentPage totalProps : Nat)
  | saveIntermediate (nprops startPage endPage : Nat)
deriving DecidableEq, Repr

/-- Configuration of one category harvest: `self.max_pages`,
`self.test_mode`, `self.start_page`. -/
structure Cfg where
  maxPages : Option Nat
  testMode : Bool
  startPage : Nat
deriving DecidableEq, Repr

/-- Mutable state of the category loop: `page`,
`consecutive_empty_batches`, `total_pages_estimate`, `all_properties`,
and the batch-iteration index (used to sample the interruption flag). -/
structure St (α : Type) where
  page : Nat
  ce : Nat
  est : Nat
  acc : List α
  bi : Nat

/-- The final save of `scrape_city_property_type` (lines 601-608):
when `all_properties` is non-empty, an intermediate-data write and a
final `save_progress` with
`final_page = page + concurrent_pages - 1 if page > start_page_for_file
else start_page_for_file`. -/
def finalEvents {α : Type} (cfg : Cfg) (page : Nat) (acc : List α) :
    List (Ev α) :=
  if acc.isEmpty then []
  else
    let finalPage := if cfg.startPage < page then page + 5 - 1 else cfg.startPage
    [Ev.saveIntermediate acc.length cfg.startPage finalPage,
     Ev.saveProgress finalPage acc.length]

/-- The `while True` loop of `scrape_city_property_type`
(lines 454-598).  `intr i` is the value of `self.interrupted` observed
at the top of loop iteration `i`; `fuel` bounds the number of
iterations (`none` is returned only on fuel exhaustion).  The returned
pair is (`all_properties`, trace of observable effects). -/
def catLoop {α : Type} (cfg : Cfg) (fetch : Nat → Nat → PageRes α)
    (intr : Nat → Bool) : Nat → St α → Option (List α × List (Ev α))
  | 0, _ => none
  | fuel + 1, s =>
    if intr s.bi then some (s.acc, finalEvents cfg s.page s.acc)
    else
      let pages := pagesToScrape cfg.maxPages s.est s.page
      if pages.isEmpty then some (s.acc, finalEvents cfg s.page s.acc)
      else
        let bo := runBatch fetch pages s.page s.est 0 2
        let acc' := s.acc ++ bo.added
        if bo.emptyPages = bo.results.length ∧ 2 ≤ s.ce + 1 then
          some (acc', Ev.batch pages bo.attempts :: finalEvents cfg s.page acc')
        else
          let ce' := if bo.emptyPages = bo.results.length then s.ce + 1 else 0
          let shouldBreak := cfg.testMode ||
            (match cfg.maxPages with
             | some m => decide (m < s.page + 5)
             | none => false) ||
            (decide (bo.est < 999) && decide (bo.est < s.page + 5))
          if shouldBreak then
            some (acc', Ev.batch pages bo.attempts :: finalEvents cfg s.page acc')
          else
            match catLoop cfg fetch intr fuel
                ⟨s.page + 5, ce', bo.est, acc', s.bi + 1⟩ with
            | none => none
            | some (res, evs) =>
              some (res, Ev.batch pages bo.attempts ::
                Ev.saveProgress (s.page + 5 + 5 - 1) acc'.length :: evs)

/-- `scrape_city_property_type` (lines 432-610) for one category:
initial state `page = start_page`, `consecutive_empty_batches = 0`,
`total_pages_estimate = 999`, `all_properties = []`. -/
def scrape_city_property_type {α : Type} (cfg : Cfg)
    (fetch : Nat → Nat → PageRes α) (intr : Nat → Bool) (fuel : Nat) :
    Option (List α × List (Ev α)) :=
  catLoop cfg fetch intr fuel ⟨cfg.startPage, 0, 999, [], 0⟩

/-- The batch page-sets dispatched in a trace, in order. -/
def batchesOf {α : Type} : List (Ev α) → List (List Nat)
  | [] => []
  | Ev.batch ps _ :: evs => ps :: batchesOf evs
  | _ :: evs => batchesOf evs

/-- The `save_progress` checkpoint writes in a trace, in order, as
(`current_page`, `total_properties_so_far`) pairs. -/
def savesOf {α : Type} : List (Ev α) → List (Nat × Nat)
  | [] => []
  | Ev.saveProgress p n :: evs => (p, n) :: savesOf evs
  | _ :: evs => savesOf evs

/-- Observable effects of the interrupt path (lines 94-137). -/
inductive IEv where
  | saveIntermediate (nprops startPage endPage : Nat)
  | saveProgress (currentPage nprops : Nat)
  | raiseKeyboardInterrupt
deriving DecidableEq, Repr

/-- `save_on_interrupt` (lines 106-137): persists the accumulated
records and current page, but only when at least one record has been
collected (`if self.current_properties and len(...) > 0`). -/
def save_on_interrupt (nprops startPage curPage : Nat) : List IEv :=
  if 0 < nprops then
    [IEv.saveIntermediate nprops startPage curPage,
     IEv.saveProgress curPage nprops]
  else []

/-- The `signal_handler` body (lines 96-101): set the interruption flag,
run `save_on_interrupt`, then raise `KeyboardInterrupt`. -/
def signal_handler (nprops startPage curPage : Nat) : List IEv :=
  save_on_interrupt nprops startPage curPage ++ [IEv.raiseKeyboardInterrupt]

/-- The belief update described by the spec ("Feed every PageResult's
reported total into PaginationEstimator"): apply the estimator's update
rule to the reported total of EVERY result, including those with an
empty record sequence. -/
def feedAllTotals {α : Type} (est : Nat) : List (PageRes α) → Nat
  | [] => est
  | r :: rs =>
    feedAllTotals (if est = 999 ∧ r.totalPages < 999 then r.totalPages else est) rs

/-- A payload from which no property data can be parsed: either the
regex/`json.loads` stage failed, or the parsed data has no
`srp.pageData.properties` key. -/
def unparseablePayload {α : Type} (h : Option (ParsedData α)) : Prop :=
  ∀ d, h = some d → d.props = none

/-- Attempt `i` of `fetch_single_page` yields zero records: either
`fetch_with_retry` returned nothing, or the extracted record list of
the response is empty. -/
def attemptNoRecords {α : Type} (att : AttemptOracle α) (i : Nat) : Prop :=
  ∀ h, att i = some h → (extract_properties_from_html h).1 = []

/-- A fetcher whose page `p` always yields the records `f p`, reports
`current_page = p`, and never reports a concrete total (the 999
sentinel), independently of the batch attempt. -/
def reportlessFetcher {α : Type} (f : Nat → List α) : Nat → Nat → PageRes α :=
  fun _ p => ⟨p, f p, p, 999⟩

/-- Concrete per-page records: pages 1..7 carry one record each, pages
8 and beyond are empty. -/
def recs7 : Nat → List Nat :=
  fun p => if 1 ≤ p ∧ p ≤ 7 then [p] else []

/-- Concrete parsed payload with zero properties and pagination
reporting page 3 of 50. -/
def emptyPage3of50 : ParsedData Nat :=
  ⟨some [], some 50, some 3, none, none⟩

/-- Concrete attempt oracle: attempts 0..3 yield responses whose
payload fails to parse, attempt 4 yields a parsed response with zero
records and pagination metadata (page 3 of 50). -/
def attMetaLast : AttemptOracle Nat :=
  fun i => if i = 4 then some (some emptyPage3of50) else some none

/-- Concrete attempt oracle for batch retries: every page is empty on
batch attempts 0 and 1, and yields one record on attempt 2. -/
def thirdTimeLucky : Nat → Nat → PageRes Nat :=
  fun a p => ⟨p, if a = 2 then [p] else [], p, 999⟩

end Scraper

namespace Scraper

/-! ### Basic facts about the batch-result processing loop -/

theorem processResults_batchProps {α : Type} (rs : List (PageRes α)) (est : Nat) :
    (processResults rs est).batchProps = rs.flatMap (fun r => r.props) := by
  induction rs generalizing est with
  | nil => rfl
  | cons r rs ih =>
    by_cases hr : r.props.isEmpty
    · simp [processResults, hr, ih, List.isEmpty_iff.mp hr]
    · simp [processResults, hr, ih]

theorem processResults_withProps {α : Type} (rs : List (PageRes α)) (est : Nat) :
    (processResults rs est).withProps = rs.countP (fun r => !r.props.isEmpty) := by
  induction rs generalizing est with
  | nil => rfl
  | cons r rs ih =>
    by_cases hr : r.props.isEmpty
    · simp [processResults, hr, ih, List.countP_cons]
    · simp [processResults, hr, ih, List.countP_cons]

theorem processResults_emptyPages {α : Type} (rs : List (PageRes α)) (est : Nat) :
    (processResults rs est).emptyPages = rs.countP (fun r => r.props.isEmpty) := by
  induction rs generalizing est with
  | nil => rfl
  | cons r rs ih =>
    by_cases hr : r.props.isEmpty
    · simp [processResults, hr, ih, List.countP_cons]
    · simp [processResults, hr, ih, List.countP_cons]

theorem processResults_est_frozen {α : Type} (rs : List (PageRes α)) (est : Nat)
    (h : est < 999) : (processResults rs est).est = est := by
  induction rs with
  | nil => rfl
  | cons r rs ih =>
    by_cases hr : r.props.isEmpty
    · simp [processResults, hr, ih]
    · have : ¬(est = 999 ∧ r.totalPages < 999) := by omega
      simp [processResults, hr, this, ih]

theorem processResults_est_sentinel_totals {α : Type} (rs : List (PageRes α)) (est : Nat)
    (h : ∀ r ∈ rs, 999 ≤ r.totalPages) : (processResults rs est).est = est := by
  induction rs generalizing est with
  | nil => rfl
  | cons r rs ih =>
    have htail : ∀ x ∈ rs, 999 ≤ x.totalPages :=
      fun x hx => h x (List.mem_cons_of_mem _ hx)
    have hr999 : ¬(est = 999 ∧ r.totalPages < 999) := by
      have := h r (List.mem_cons_self r rs)
      omega
    by_cases hr : r.props.isEmpty
    · simpa [processResults, hr] using ih est htail
    · simpa [processResults, hr, hr999] using ih est htail

theorem processResults_est_all_empty {α : Type} (rs : List (PageRes α)) (est : Nat)
    (h : ∀ r ∈ rs, r.props = []) : (processResults rs est).est = est := by
  induction rs generalizing est with
  | nil => rfl
  | cons r rs ih =>
    have htail : ∀ x ∈ rs, x.props = [] :=
      fun x hx => h x (List.mem_cons_of_mem _ hx)
    have hr : r.props.isEmpty = true :=
      List.isEmpty_iff.mpr (h r (List.mem_cons_self r rs))
    simpa [processResults, hr] using ih est htail

/-! ### Basic facts about the batch-result sort -/

theorem sortBatch_perm {α : Type} (rs : List (PageRes α)) : (sortBatch rs).Perm rs :=
  List.perm_insertionSort pageLE rs

theorem mem_sortBatch {α : Type} {r : PageRes α} {rs : List (PageRes α)} :
    r ∈ sortBatch rs ↔ r ∈ rs :=
  (sortBatch_perm rs).mem_iff

theorem sortBatch_length {α : Type} (rs : List (PageRes α)) :
    (sortBatch rs).length = rs.length :=
  (sortBatch_perm rs).length_eq

theorem sortBatch_pairwise {α : Type} (rs : List (PageRes α)) :
    (sortBatch rs).Pairwise pageLE :=
  List.sorted_insertionSort pageLE rs

theorem sortBatch_of_sorted {α : Type} {rs : List (PageRes α)}
    (h : rs.Pairwise pageLE) : sortBatch rs = rs :=
  List.Sorted.insertionSort_eq h

/-! ### Basic facts about candidate-page construction and trace observers -/

theorem buildPages_sentinel (cp n : Nat) :
    buildPages none 999 cp n = List.range' cp n := by
  induction n generalizing cp with
  | zero => rfl
  | succ n ih => simp [buildPages, ih, List.range']

theorem pagesToScrape_sentinel (page : Nat) :
    pagesToScrape none 999 page = List.range' page 5 :=
  buildPages_sentinel page 5

theorem batchesOf_finalEvents {α : Type} (cfg : Cfg) (page : Nat) (acc : List α) :
    batchesOf (finalEvents cfg page acc) = ([] : List (List Nat)) := by
  unfold finalEvents
  split
  · rfl
  · rfl

end Scraper

namespace Scraper

/-! ### Facts about the batch-retry loop -/

theorem runBatch_success {α : Type} (fetch : Nat → Nat → PageRes α)
    (pages : List Nat) (page est a rl : Nat)
    (hx : ∃ p ∈ pages, (fetch a p).props ≠ []) :
    runBatch fetch pages page est a rl =
      ⟨sortBatch (pages.map (fetch a)),
       (processResults (sortBatch (pages.map (fetch a))) est).batchProps,
       (processResults (sortBatch (pages.map (fetch a))) est).est,
       (processResults (sortBatch (pages.map (fetch a))) est).emptyPages,
       a + 1⟩ := by
  have hw : 0 < (processResults (sortBatch (pages.map (fetch a))) est).withProps := by
    rw [processResults_withProps, List.countP_pos_iff]
    obtain ⟨p, hp, hne⟩ := hx
    exact ⟨fetch a p, mem_sortBatch.mpr (List.mem_map_of_mem _ hp), by simpa using hne⟩
  cases rl with
  | zero => simp only [runBatch]; rw [if_pos (Or.inl hw)]
  | succ rl => simp only [runBatch]; rw [if_pos (Or.inl hw)]

theorem runBatch_high_page {α : Type} (fetch : Nat → Nat → PageRes α)
    (pages : List Nat) (page est a rl : Nat) (hp : 100 < page) :
    runBatch fetch pages page est a rl =
      ⟨sortBatch (pages.map (fetch a)),
       (processResults (sortBatch (pages.map (fetch a))) est).batchProps,
       (processResults (sortBatch (pages.map (fetch a))) est).est,
       (processResults (sortBatch (pages.map (fetch a))) est).emptyPages,
       a + 1⟩ := by
  cases rl with
  | zero => simp only [runBatch]; rw [if_pos (Or.inr hp)]
  | succ rl => simp only [runBatch]; rw [if_pos (Or.inr hp)]

theorem all_empty_results {α : Type} (fetch : Nat → Nat → PageRes α)
    (pages : List Nat) (a : Nat) (he : ∀ p ∈ pages, (fetch a p).props = []) :
    ∀ r ∈ sortBatch (pages.map (fetch a)), r.props = [] := by
  intro r hr
  rw [mem_sortBatch] at hr
  obtain ⟨p, hpmem, rfl⟩ := List.mem_map.mp hr
  exact he p hpmem

theorem withProps_zero_of_all_empty {α : Type} (rs : List (PageRes α)) (est : Nat)
    (h : ∀ r ∈ rs, r.props = []) : (processResults rs est).withProps = 0 := by
  rw [processResults_withProps, List.countP_eq_zero]
  intro r hr
  simp [h r hr]

theorem runBatch_fail_final {α : Type} (fetch : Nat → Nat → PageRes α)
    (pages : List Nat) (page est a : Nat) (hp : ¬ 100 < page)
    (he : ∀ p ∈ pages, (fetch a p).props = []) :
    runBatch fetch pages page est a 0 =
      ⟨sortBatch (pages.map (fetch a)), [], est,
       (processResults (sortBatch (pages.map (fetch a))) est).emptyPages,
       a + 1⟩ := by
  have hall := all_empty_results fetch pages a he
  have hw := withProps_zero_of_all_empty (sortBatch (pages.map (fetch a))) est hall
  have hest := processResults_est_all_empty (sortBatch (pages.map (fetch a))) est hall
  simp only [runBatch]
  rw [if_neg (by rw [hw]; rintro (h1 | h2) <;> omega)]
  rw [hest]

theorem runBatch_fail_step {α : Type} (fetch : Nat → Nat → PageRes α)
    (pages : List Nat) (page est a rl : Nat) (hp : ¬ 100 < page)
    (he : ∀ p ∈ pages, (fetch a p).props = []) :
    runBatch fetch pages page est a (rl + 1) =
      runBatch fetch pages page est (a + 1) rl := by
  have hall := all_empty_results fetch pages a he
  have hw := withProps_zero_of_all_empty (sortBatch (pages.map (fetch a))) est hall
  have hest := processResults_est_all_empty (sortBatch (pages.map (fetch a))) est hall
  simp only [runBatch]
  rw [if_neg (by rw [hw]; rintro (h1 | h2) <;> omega)]
  rw [hest]

theorem runBatch_all_empty {α : Type} (fetch : Nat → Nat → PageRes α)
    (pages : List Nat) (page : Nat) :
    ∀ (rl est a : Nat), (∀ a' p, p ∈ pages → (fetch a' p).props = []) →
      (runBatch fetch pages page est a rl).added = [] ∧
      (runBatch fetch pages page est a rl).est = est ∧
      (runBatch fetch pages page est a rl).emptyPages =
        (runBatch fetch pages page est a rl).results.length := by
  intro rl
  induction rl with
  | zero =>
    intro est a he
    have hall := all_empty_results fetch pages a (he a)
    have hprops : (processResults (sortBatch (pages.map (fetch a))) est).batchProps = [] := by
      rw [processResults_batchProps, List.flatMap_eq_nil_iff]
      exact hall
    have hest := processResults_est_all_empty (sortBatch (pages.map (fetch a))) est hall
    have hemp : (processResults (sortBatch (pages.map (fetch a))) est).emptyPages =
        (sortBatch (pages.map (fetch a))).length := by
      rw [processResults_emptyPages, List.countP_eq_length]
      intro r hr
      simp [hall r hr]
    by_cases hp : 100 < page
    · rw [runBatch_high_page fetch pages page est a 0 hp]
      exact ⟨hprops, hest, hemp⟩
    · rw [runBatch_fail_final fetch pages page est a hp (he a)]
      exact ⟨rfl, rfl, hemp⟩
  | succ rl ih =>
    intro est a he
    by_cases hp : 100 < page
    · have hall := all_empty_results fetch pages a (he a)
      have hprops : (processResults (sortBatch (pages.map (fetch a))) est).batchProps = [] := by
        rw [processResults_batchProps, List.flatMap_eq_nil_iff]
        exact hall
      have hest := processResults_est_all_empty (sortBatch (pages.map (fetch a))) est hall
      have hemp : (processResults (sortBatch (pages.map (fetch a))) est).emptyPages =
          (sortBatch (pages.map (fetch a))).length := by
        rw [processResults_emptyPages, List.countP_eq_length]
        intro r hr
        simp [hall r hr]
      rw [runBatch_high_page fetch pages page est a (rl + 1) hp]
      exact ⟨hprops, hest, hemp⟩
    · rw [runBatch_fail_step fetch pages page est a rl hp (he a)]
      exact ih est (a + 1) he

end Scraper

namespace Scraper

/-! ### C10: total-pages default when pagination metadata is absent -/

/-- C10: when a successfully parsed payload contains a `properties`
list but no pagination metadata on any of the inspected paths, the
reported total page count is the 999 unknown sentinel exactly when at
least 25 properties were extracted, and 1 otherwise. -/
theorem C10_default_total_without_metadata {α : Type} (d : ParsedData α)
    (props : List α) (hp : d.props = some props) (h1 : d.pgTotal = none)
    (h2 : d.altTotal = none) (h3 : d.altTotal2 = none) :
    (extract_properties_from_html (some d)).2.2 =
      if 25 ≤ props.length then 999 else 1 := by
  simp [extract_properties_from_html, hp, h1, h2, h3]

/-- Witness for C10: a parsed payload with a single property and no
pagination metadata reports a total of 1. -/
theorem C10_default_total_without_metadata_witness :
    (extract_properties_from_html
      (some (⟨some [0], none, none, none, none⟩ : ParsedData Nat))).2.2 =
      if 25 ≤ ([0] : List Nat).length then 999 else 1 :=
  C10_default_total_without_metadata ⟨some [0], none, none, none, none⟩ [0]
    rfl rfl rfl rfl

/-! ### C6: behaviour of the extractor on unparseable payloads -/

/-- C6 as stated is false: on an unparseable payload the code returns
`([], 1, 1)` — a total-pages value of 1, not the 999 unknown sentinel
claimed by the spec ("returns `([], 1, unknown)`"). -/
theorem C6_unknown_default_counterexample :
    extract_properties_from_html (none : Option (ParsedData Nat)) = ([], 1, 1) ∧
    extract_properties_from_html (none : Option (ParsedData Nat)) ≠ ([], 1, 999) := by
  decide

/-- C6 amended: the extraction function is total (it never raises; every
failure path of the Python body is caught and falls through), and on
every payload from which no property data can be parsed it returns an
empty record list, current page 1, and total-pages 1. -/
theorem C6_unparseable_returns_1_1 {α : Type} (h : Option (ParsedData α))
    (hu : unparseablePayload h) :
    extract_properties_from_html h = ([], 1, 1) := by
  cases h with
  | none => rfl
  | some d =>
    have hd : d.props = none := hu d rfl
    simp [extract_properties_from_html, hd]

/-- Witness for the amended C6 at a concrete unparseable payload. -/
theorem C6_unparseable_returns_1_1_witness :
    extract_properties_from_html (none : Option (ParsedData Nat)) = ([], 1, 1) :=
  C6_unparseable_returns_1_1 none (fun _ h => Option.noConfusion h)

/-! ### C7: which reported totals reach the pagination belief -/

/-- C7 as stated is false: a batch result with an empty record sequence
but a concrete reported total (here 50) is NOT fed into the
total-pages-estimate update — the code leaves the 999 sentinel in
place, while feeding every result (as the spec says) would refine it
to 50. -/
theorem C7_feed_every_result_counterexample :
    (processResults ([⟨8, [], 1, 50⟩] : List (PageRes Nat)) 999).est = 999 ∧
    feedAllTotals 999 ([⟨8, [], 1, 50⟩] : List (PageRes Nat)) = 50 ∧
    (999 : Nat) ≠ 50 := by
  decide

/-- C7 amended: only the page results with a non-empty record sequence
are fed into the pagination-belief update; results with an empty record
sequence are skipped, their reported totals ignored. -/
theorem C7_only_nonempty_results_feed_belief {α : Type}
    (rs : List (PageRes α)) (est : Nat) :
    (processResults rs est).est =
      feedAllTotals est (rs.filter (fun r => !r.props.isEmpty)) := by
  induction rs generalizing est with
  | nil => rfl
  | cons r rs ih =>
    by_cases hr : r.props.isEmpty
    · simp [processResults, feedAllTotals, hr, ih]
    · simp [processResults, feedAllTotals, hr, ih]

end Scraper

namespace Scraper

/-! ### C1: what page number each per-batch checkpoint records -/

/-- C1 fails on the code: with a fetcher yielding records on pages 1-7
(and never reporting a concrete total), the four dispatched batches are
1-5, 6-10, 11-15, 16-20, yet the checkpoint written after the first
completed batch records `current_page = 10` — the last candidate page
of the NEXT batch — instead of 5, the highest page attempted in the
just-finished batch.  (`save_progress` at line 587 is called with
`page + concurrent_pages - 1` after `page += concurrent_pages` at line
577; the interrupt path and the final save use the unincremented
value.) -/
theorem C1_checkpoint_records_next_batch :
    (scrape_city_property_type ⟨none, false, 1⟩ (reportlessFetcher recs7)
        (fun _ => false) 10).map (fun r => batchesOf r.2) =
      some [[1, 2, 3, 4, 5], [6, 7, 8, 9, 10], [11, 12, 13, 14, 15],
            [16, 17, 18, 19, 20]] ∧
    (scrape_city_property_type ⟨none, false, 1⟩ (reportlessFetcher recs7)
        (fun _ => false) 10).map (fun r => savesOf r.2) =
      some [(10, 5), (15, 7), (20, 7), (20, 7)] ∧
    (10 : Nat) ≠ 5 := by
  decide

end Scraper

namespace Scraper

/-! ### C5 (counterexample part): the all-failed default metadata -/

/-- C5 as stated is false in its default clause: when every one of the
5 attempts fails to fetch, `fetch_single_page` returns total-pages 1,
not the 999 unknown sentinel the spec's "page 1 of unknown" default
describes. -/
theorem C5_default_metadata_counterexample :
    fetch_single_page (fun _ => (none : Option (Option (ParsedData Nat)))) 7 =
      ⟨7, [], 1, 1⟩ ∧
    (fetch_single_page (fun _ => (none : Option (Option (ParsedData Nat)))) 7).totalPages
      ≠ 999 := by
  decide

/-! ### C9: interrupt handling -/

/-- C9 as stated is false: a cancellation signal arriving while zero
records have been accumulated persists nothing — `save_on_interrupt`
writes no checkpoint at all before the `KeyboardInterrupt` is
re-raised. -/
theorem C9_flush_counterexample :
    signal_handler 0 1 5 = [IEv.raiseKeyboardInterrupt] ∧
    IEv.saveProgress 5 0 ∉ signal_handler 0 1 5 := by
  decide

/-- C9 amended: when at least one record has been accumulated, the
signal handler persists the intermediate data and the checkpoint
(carrying the accumulated record count and current page) strictly
before re-raising the cancellation; and once the interruption flag is
observed at the top of a batch iteration the category loop returns
immediately, dispatching no further batch (the final save emits no
dispatch events). -/
theorem C9_flush_before_reraise_no_new_batches {α : Type}
    (n startP curP : Nat) (hn : 0 < n) :
    signal_handler n startP curP =
      [IEv.saveIntermediate n startP curP, IEv.saveProgress curP n,
       IEv.raiseKeyboardInterrupt] ∧
    (∀ (cfg : Cfg) (fetch : Nat → Nat → PageRes α) (intr : Nat → Bool)
        (fuel : Nat) (s : St α), intr s.bi = true → 0 < fuel →
        catLoop cfg fetch intr fuel s =
          some (s.acc, finalEvents cfg s.page s.acc)) ∧
    (∀ (cfg : Cfg) (page : Nat) (acc : List α),
        batchesOf (finalEvents cfg page acc) = []) := by
  refine ⟨?_, ?_, ?_⟩
  · simp [signal_handler, save_on_interrupt, hn]
  · intro cfg fetch intr fuel s hi hf
    match fuel, hf with
    | fuel + 1, _ => simp [catLoop, hi]
  · intro cfg page acc
    exact batchesOf_finalEvents cfg page acc

/-- Witness for the amended C9: the spec's 42-records scenario, plus a
concrete interrupted loop state from which no batch is dispatched. -/
theorem C9_flush_before_reraise_no_new_batches_witness :
    signal_handler 42 1 20 =
      [IEv.saveIntermediate 42 1 20, IEv.saveProgress 20 42,
       IEv.raiseKeyboardInterrupt] ∧
    catLoop ⟨none, false, 1⟩ (fun _ p => (⟨p, [], 1, 1⟩ : PageRes Nat))
        (fun _ => true) 3 ⟨1, 0, 999, [], 0⟩ =
      some ([], finalEvents ⟨none, false, 1⟩ 1 []) :=
  ⟨(C9_flush_before_reraise_no_new_batches (α := Nat) 42 1 20 (by decide)).1,
   (C9_flush_before_reraise_no_new_batches (α := Nat) 42 1 20 (by decide)).2.1
     ⟨none, false, 1⟩ (fun _ p => ⟨p, [], 1, 1⟩) (fun _ => true) 3
     ⟨1, 0, 999, [], 0⟩ rfl (by decide)⟩

/-! ### C4: permanence of the total-pages belief -/

/-- C4: once the total-pages estimate has left the 999 unknown sentinel
for a concrete value it is never changed again, neither by the
result-processing loop (whatever totals later results report) nor by
the batch-retry loop; from the sentinel, the first concrete total
reported by a record-bearing result (in page order) wins; and no page
greater than a concrete estimate is ever placed in a candidate page
set. -/
theorem C4_belief_permanent_and_caps_pages {α : Type} :
    (∀ (rs : List (PageRes α)) (est : Nat), est < 999 →
        (processResults rs est).est = est) ∧
    (∀ (fetch : Nat → Nat → PageRes α) (pages : List Nat)
        (page est a rl : Nat), est < 999 →
        (runBatch fetch pages page est a rl).est = est) ∧
    (∀ (rs : List (PageRes α)),
        (processResults rs 999).est =
          (((rs.find? (fun r => !r.props.isEmpty && decide (r.totalPages < 999))).map
            (fun r => r.totalPages)).getD 999)) ∧
    (∀ (maxPages : Option Nat) (est page n : Nat), est < 999 →
        ∀ p ∈ buildPages maxPages est page n, p ≤ est) := by
  refine ⟨?_, ?_, ?_, ?_⟩
  · exact fun rs est h => processResults_est_frozen rs est h
  · intro fetch pages page est a rl hest
    induction rl generalizing est a with
    | zero =>
      simp only [runBatch]
      split
      · exact processResults_est_frozen _ est hest
      · exact processResults_est_frozen _ est hest
    | succ rl ih =>
      simp only [runBatch]
      split
      · exact processResults_est_frozen _ est hest
      · rw [processResults_est_frozen _ est hest]
        exact ih est (a + 1) hest
  · intro rs
    induction rs with
    | nil => rfl
    | cons r rs ih =>
      by_cases hr : r.props.isEmpty
      · simp [processResults, List.find?, hr, ih]
      · by_cases ht : r.totalPages < 999
        · have : (processResults rs r.totalPages).est = r.totalPages :=
            processResults_est_frozen rs r.totalPages ht
          simp [processResults, List.find?, hr, ht, this]
        · simp [processResults, List.find?, hr, ht, ih]
  · intro maxPages est page n hest
    induction n generalizing page with
    | zero => intro p hp; simp [buildPages] at hp
    | succ n ih =>
      intro p hp
      unfold buildPages at hp
      split at hp
      · simp at hp
      · split at hp
        · simp at hp
        · rename_i hcond
          rcases List.mem_cons.mp hp with rfl | hp
          · omega
          · exact ih (page + 1) p hp

/-- Witness for C4: a concrete frozen estimate survives a batch result
reporting a different total, and a concrete candidate page respects a
concrete estimate. -/
theorem C4_belief_permanent_and_caps_pages_witness :
    (processResults ([⟨2, [0], 2, 50⟩] : List (PageRes Nat)) 10).est = 10 ∧
    (9 : Nat) ≤ 10 :=
  ⟨(C4_belief_permanent_and_caps_pages (α := Nat)).1 [⟨2, [0], 2, 50⟩] 10 (by decide),
   (C4_belief_permanent_and_caps_pages (α := Nat)).2.2.2 none 10 9 5 (by decide) 9
     (by decide)⟩

end Scraper

namespace Scraper

/-! ### C3: batch-level retry policy -/

/-- C3: a batch whose starting page is at most 100 is re-dispatched up
to 2 additional times when a pass yields no records at all, before the
all-empty outcome is accepted (with nothing added); records obtained on
any of those attempts are kept (the accumulated batch is exactly the
successful attempt's sorted results, flattened); a batch whose starting
page exceeds 100 is given a single pass, whatever it yields. -/
theorem C3_batch_level_retry {α : Type} (fetch : Nat → Nat → PageRes α)
    (pages : List Nat) (page est : Nat) :
    (page ≤ 100 → (∀ a, a < 3 → ∀ p ∈ pages, (fetch a p).props = []) →
        (runBatch fetch pages page est 0 2).attempts = 3 ∧
        (runBatch fetch pages page est 0 2).added = []) ∧
    (∀ a, a < 3 → page ≤ 100 →
        (∀ b, b < a → ∀ p ∈ pages, (fetch b p).props = []) →
        (∃ p ∈ pages, (fetch a p).props ≠ []) →
        (runBatch fetch pages page est 0 2).attempts = a + 1 ∧
        (runBatch fetch pages page est 0 2).added =
          (sortBatch (pages.map (fetch a))).flatMap (fun r => r.props)) ∧
    (100 < page →
        (runBatch fetch pages page est 0 2).attempts = 1 ∧
        (runBatch fetch pages page est 0 2).added =
          (sortBatch (pages.map (fetch 0))).flatMap (fun r => r.props)) := by
  refine ⟨?_, ?_, ?_⟩
  · intro hple hall
    rw [runBatch_fail_step fetch pages page est 0 1 (by omega) (hall 0 (by omega)),
        runBatch_fail_step fetch pages page est 1 0 (by omega) (hall 1 (by omega)),
        runBatch_fail_final fetch pages page est 2 (by omega) (hall 2 (by omega))]
    exact ⟨rfl, rfl⟩
  · intro a ha hple hbefore hx
    interval_cases a
    · rw [runBatch_success fetch pages page est 0 2 hx]
      exact ⟨rfl, processResults_batchProps _ est⟩
    · rw [runBatch_fail_step fetch pages page est 0 1 (by omega)
            (hbefore 0 (by omega)),
          runBatch_success fetch pages page est 1 1 hx]
      exact ⟨rfl, processResults_batchProps _ est⟩
    · rw [runBatch_fail_step fetch pages page est 0 1 (by omega)
            (hbefore 0 (by omega)),
          runBatch_fail_step fetch pages page est 1 0 (by omega)
            (hbefore 1 (by omega)),
          runBatch_success fetch pages page est 2 0 hx]
      exact ⟨rfl, processResults_batchProps _ est⟩
  · intro h100
    rw [runBatch_high_page fetch pages page est 0 2 h100]
    exact ⟨rfl, processResults_batchProps _ est⟩

/-- Witness for C3: the spec's P5 scenario — a fetcher that is empty on
the first two attempts of the batch and yields records on the third;
those records are kept and the batch was dispatched 3 times. -/
theorem C3_batch_level_retry_witness :
    (runBatch thirdTimeLucky [1, 2, 3, 4, 5] 1 999 0 2).attempts = 3 ∧
    (runBatch thirdTimeLucky [1, 2, 3, 4, 5] 1 999 0 2).added =
      (sortBatch ([1, 2, 3, 4, 5].map (thirdTimeLucky 2))).flatMap
        (fun r => r.props) :=
  (C3_batch_level_retry thirdTimeLucky [1, 2, 3, 4, 5] 1 999).2.1 2 (by decide)
    (by decide) (by decide) (by decide)

/-! ### C8: per-batch sorting makes accumulation order-deterministic -/

theorem sortBatch_eq_of_perm {α : Type} {rs rs' : List (PageRes α)}
    (hperm : rs.Perm rs') (hnodup : (rs.map (fun r => r.page)).Nodup) :
    sortBatch rs = sortBatch rs' := by
  have hperm2 : (sortBatch rs).Perm (sortBatch rs') :=
    (sortBatch_perm rs).trans (hperm.trans (sortBatch_perm rs').symm)
  have hnd1 : ((sortBatch rs).map (fun r => r.page)).Nodup :=
    ((sortBatch_perm rs).map (fun r => r.page)).nodup_iff.mpr hnodup
  have hnd2 : ((sortBatch rs').map (fun r => r.page)).Nodup := by
    refine ((sortBatch_perm rs').map (fun r => r.page)).nodup_iff.mpr ?_
    exact ((hperm.map (fun r => r.page)).nodup_iff).mp hnodup
  have hlt1 : (sortBatch rs).Pairwise (fun a b : PageRes α => a.page < b.page) := by
    have hne : (sortBatch rs).Pairwise (fun a b : PageRes α => a.page ≠ b.page) :=
      List.pairwise_map.mp hnd1
    exact ((sortBatch_pairwise rs).and hne).imp
      (fun h => lt_of_le_of_ne h.1 h.2)
  have hlt2 : (sortBatch rs').Pairwise (fun a b : PageRes α => a.page < b.page) := by
    have hne : (sortBatch rs').Pairwise (fun a b : PageRes α => a.page ≠ b.page) :=
      List.pairwise_map.mp hnd2
    exact ((sortBatch_pairwise rs').and hne).imp
      (fun h => lt_of_le_of_ne h.1 h.2)
  haveI : IsAntisymm (PageRes α) (fun a b : PageRes α => a.page < b.page) :=
    ⟨fun a b h1 h2 => absurd h2 (Nat.lt_asymm h1)⟩
  exact List.eq_of_perm_of_sorted hperm2 hlt1 hlt2

/-- C8: whatever completion order the concurrent fetches finish in (any
permutation of the same page results, page numbers being distinct), the
sorted batch is the same list, it is ordered by ascending page number,
and the records accumulated from it are exactly its page-ordered
concatenation — so accumulation is deterministic and page-ordered. -/
theorem C8_sorted_accumulation_deterministic {α : Type}
    (rs rs' : List (PageRes α)) (est : Nat) (hperm : rs.Perm rs')
    (hnodup : (rs.map (fun r => r.page)).Nodup) :
    sortBatch rs = sortBatch rs' ∧
    (sortBatch rs).Pairwise pageLE ∧
    (processResults (sortBatch rs) est).batchProps =
      (sortBatch rs).flatMap (fun r => r.props) :=
  ⟨sortBatch_eq_of_perm hperm hnodup, sortBatch_pairwise rs,
   processResults_batchProps _ est⟩

/-- Witness for C8: two completion orders of the same two page results
sort identically, in ascending page order. -/
theorem C8_sorted_accumulation_deterministic_witness :
    sortBatch ([⟨3, [30], 3, 999⟩, ⟨1, [10], 1, 999⟩] : List (PageRes Nat)) =
      sortBatch ([⟨1, [10], 1, 999⟩, ⟨3, [30], 3, 999⟩] : List (PageRes Nat)) ∧
    (sortBatch ([⟨3, [30], 3, 999⟩, ⟨1, [10], 1, 999⟩] :
        List (PageRes Nat))).Pairwise pageLE ∧
    (processResults (sortBatch ([⟨3, [30], 3, 999⟩, ⟨1, [10], 1, 999⟩] :
        List (PageRes Nat))) 999).batchProps =
      (sortBatch ([⟨3, [30], 3, 999⟩, ⟨1, [10], 1, 999⟩] :
        List (PageRes Nat))).flatMap (fun r => r.props) :=
  C8_sorted_accumulation_deterministic
    [⟨3, [30], 3, 999⟩, ⟨1, [10], 1, 999⟩]
    [⟨1, [10], 1, 999⟩, ⟨3, [30], 3, 999⟩] 999 (by decide) (by decide)

end Scraper

namespace Scraper

/-! ### C5 (amended part): the per-page retry loop -/

theorem fspGo_congr {α : Type} (att att' : AttemptOracle α) (p : Nat) :
    ∀ (fuel idx : Nat), (∀ i, idx ≤ i → i < idx + fuel → att i = att' i) →
      fspGo att p idx fuel = fspGo att' p idx fuel := by
  intro fuel
  induction fuel with
  | zero => intro idx _; rfl
  | succ fuel ih =>
    intro idx h
    have h0 : att' idx = att idx := (h idx le_rfl (by omega)).symm
    simp only [fspGo, h0]
    cases hatt : att idx with
    | none =>
      by_cases hf : fuel = 0
      · simp [hf]
      · simp only [hf, if_false]
        exact ih (idx + 1) (fun i h1 h2 => h i (by omega) (by omega))
    | some html =>
      by_cases hf : fuel = 0
      · simp [hf]
      · simp only [hf, if_false]
        by_cases he : (extract_properties_from_html html).1.isEmpty
        · simp only [he, if_true]
          exact ih (idx + 1) (fun i h1 h2 => h i (by omega) (by omega))
        · simp [he]

theorem fspGo_skip {α : Type} (att : AttemptOracle α) (p idx fuel : Nat)
    (hf : fuel ≠ 0) (hz : attemptNoRecords att idx) :
    fspGo att p idx (fuel + 1) = fspGo att p (idx + 1) fuel := by
  simp only [fspGo]
  cases hatt : att idx with
  | none => simp [hf]
  | some html =>
    have he : (extract_properties_from_html html).1 = [] := hz html hatt
    simp [he, hf]

theorem fspGo_hit {α : Type} (att : AttemptOracle α) (p idx fuel : Nat)
    (html : Option (ParsedData α)) (hatt : att idx = some html)
    (hne : (extract_properties_from_html html).1 ≠ []) :
    fspGo att p idx (fuel + 1) =
      ⟨p, (extract_properties_from_html html).1,
       (extract_properties_from_html html).2.1,
       (extract_properties_from_html html).2.2⟩ := by
  simp only [fspGo, hatt]
  simp [List.isEmpty_iff, hne]

theorem fspGo_last_none {α : Type} (att : AttemptOracle α) (p idx : Nat)
    (hatt : att idx = none) : fspGo att p idx 1 = ⟨p, [], 1, 1⟩ := by
  simp [fspGo, hatt]

theorem fspGo_last_some_empty {α : Type} (att : AttemptOracle α) (p idx : Nat)
    (html : Option (ParsedData α)) (hatt : att idx = some html)
    (he : (extract_properties_from_html html).1 = []) :
    fspGo att p idx 1 =
      ⟨p, [], (extract_properties_from_html html).2.1,
       (extract_properties_from_html html).2.2⟩ := by
  simp [fspGo, hatt, he]

/-- C5 amended: `fetch_single_page` consults at most the first 5
attempts; it returns the first attempt's extracted records and
pagination metadata as soon as an attempt yields at least one record;
and when every attempt yields zero records it returns the requested
page number, an empty record sequence, and the pagination metadata of
the FINAL attempt when that attempt produced a parsed response —
defaulting to current page 1 and total-pages 1 (not the 999 unknown
sentinel) when the final attempt's fetch failed. -/
theorem C5_retry_budget_and_result {α : Type} (att : AttemptOracle α)
    (pageNum : Nat) :
    (∀ att' : AttemptOracle α, (∀ i, i < 5 → att i = att' i) →
        fetch_single_page att pageNum = fetch_single_page att' pageNum) ∧
    (∀ j, j < 5 → (∀ i, i < j → attemptNoRecords att i) →
        ∀ html, att j = some html →
        (extract_properties_from_html html).1 ≠ [] →
        fetch_single_page att pageNum =
          ⟨pageNum, (extract_properties_from_html html).1,
           (extract_properties_from_html html).2.1,
           (extract_properties_from_html html).2.2⟩) ∧
    ((∀ i, i < 5 → attemptNoRecords att i) →
        (att 4 = none → fetch_single_page att pageNum = ⟨pageNum, [], 1, 1⟩) ∧
        (∀ html, att 4 = some html →
            fetch_single_page att pageNum =
              ⟨pageNum, [], (extract_properties_from_html html).2.1,
               (extract_properties_from_html html).2.2⟩)) := by
  refine ⟨?_, ?_, ?_⟩
  · intro att' h
    exact fspGo_congr att att' pageNum 5 0 (fun i h1 h2 => h i (by omega))
  · intro j hj hz html hatt hne
    interval_cases j
    · exact fspGo_hit att pageNum 0 4 html hatt hne
    · calc fetch_single_page att pageNum
          = fspGo att pageNum 1 4 :=
            fspGo_skip att pageNum 0 4 (by omega) (hz 0 (by omega))
        _ = _ := fspGo_hit att pageNum 1 3 html hatt hne
    · calc fetch_single_page att pageNum
          = fspGo att pageNum 1 4 :=
            fspGo_skip att pageNum 0 4 (by omega) (hz 0 (by omega))
        _ = fspGo att pageNum 2 3 :=
            fspGo_skip att pageNum 1 3 (by omega) (hz 1 (by omega))
        _ = _ := fspGo_hit att pageNum 2 2 html hatt hne
    · calc fetch_single_page att pageNum
          = fspGo att pageNum 1 4 :=
            fspGo_skip att pageNum 0 4 (by omega) (hz 0 (by omega))
        _ = fspGo att pageNum 2 3 :=
            fspGo_skip att pageNum 1 3 (by omega) (hz 1 (by omega))
        _ = fspGo att pageNum 3 2 :=
            fspGo_skip att pageNum 2 2 (by omega) (hz 2 (by omega))
        _ = _ := fspGo_hit att pageNum 3 1 html hatt hne
    · calc fetch_single_page att pageNum
          = fspGo att pageNum 1 4 :=
            fspGo_skip att pageNum 0 4 (by omega) (hz 0 (by omega))
        _ = fspGo att pageNum 2 3 :=
            fspGo_skip att pageNum 1 3 (by omega) (hz 1 (by omega))
        _ = fspGo att pageNum 3 2 :=
            fspGo_skip att pageNum 2 2 (by omega) (hz 2 (by omega))
        _ = fspGo att pageNum 4 1 :=
            fspGo_skip att pageNum 3 1 (by omega) (hz 3 (by omega))
        _ = _ := fspGo_hit att pageNum 4 0 html hatt hne
  · intro hz
    have hchain : fetch_single_page att pageNum = fspGo att pageNum 4 1 :=
      calc fetch_single_page att pageNum
          = fspGo att pageNum 1 4 :=
            fspGo_skip att pageNum 0 4 (by omega) (hz 0 (by omega))
        _ = fspGo att pageNum 2 3 :=
            fspGo_skip att pageNum 1 3 (by omega) (hz 1 (by omega))
        _ = fspGo att pageNum 3 2 :=
            fspGo_skip att pageNum 2 2 (by omega) (hz 2 (by omega))
        _ = fspGo att pageNum 4 1 :=
            fspGo_skip att pageNum 3 1 (by omega) (hz 3 (by omega))
    constructor
    · intro hatt
      rw [hchain]
      exact fspGo_last_none att pageNum 4 hatt
    · intro html hatt
      rw [hchain]
      exact fspGo_last_some_empty att pageNum 4 html hatt (hz 4 (by omega) html hatt)

/-- Witness for the amended C5: four parse-failed attempts followed by
a parsed zero-record attempt reporting page 3 of 50; the result carries
that final attempt's metadata. -/
theorem C5_retry_budget_and_result_witness :
    fetch_single_page attMetaLast 7 = ⟨7, [], 3, 50⟩ := by
  have hz : ∀ i, i < 5 → attemptNoRecords attMetaLast i := by
    intro i hi html hh
    interval_cases i <;>
      · simp only [attMetaLast] at hh
        obtain rfl := (Option.some.inj hh).symm
        rfl
  exact ((C5_retry_budget_and_result attMetaLast 7).2.2 hz).2
    (some emptyPage3of50) rfl

end Scraper

namespace Scraper

/-! ### C2: termination on true end-of-data -/

theorem reportless_sortBatch {α : Type} (f : Nat → List α) (a P n : Nat) :
    sortBatch ((List.range' P n).map (reportlessFetcher f a)) =
      (List.range' P n).map (reportlessFetcher f a) := by
  apply sortBatch_of_sorted
  rw [List.pairwise_map]
  exact (List.pairwise_lt_range' P n 1 (by omega)).imp (fun h => le_of_lt h)

theorem reportless_batch_facts {α : Type} (f : Nat → List α) (P est a : Nat) :
    (processResults ((List.range' P 5).map (reportlessFetcher f a)) est).est = est ∧
    (processResults ((List.range' P 5).map (reportlessFetcher f a)) est).batchProps =
      (List.range' P 5).flatMap f := by
  constructor
  · apply processResults_est_sentinel_totals
    intro r hr
    obtain ⟨p, _, rfl⟩ := List.mem_map.mp hr
    exact le_refl 999
  · rw [processResults_batchProps, List.flatMap_map]
    rfl

theorem reportless_not_all_empty {α : Type} (f : Nat → List α) (P k : Nat)
    (hP1 : 1 ≤ P) (hPk : P ≤ k) (hne : ∀ p, 1 ≤ p → p ≤ k → f p ≠ [])
    (est a : Nat) :
    ¬ ((processResults ((List.range' P 5).map (reportlessFetcher f a)) est).emptyPages =
        ((List.range' P 5).map (reportlessFetcher f a)).length) := by
  rw [processResults_emptyPages]
  intro h
  have hmem := List.countP_eq_length.mp h (reportlessFetcher f a P)
    (List.mem_map_of_mem _ (List.mem_range'_1.mpr ⟨le_rfl, by omega⟩))
  exact hne P hP1 hPk (by simpa [reportlessFetcher, List.isEmpty_iff] using hmem)

end Scraper


namespace Scraper

theorem catLoop_step_nonempty {α : Type} (f : Nat → List α) (k : Nat)
    (hne : ∀ p, 1 ≤ p → p ≤ k → f p ≠ [])
    (P ce fuel bi : Nat) (acc : List α) (hP1 : 1 ≤ P) (hPk : P ≤ k) :
    catLoop ⟨none, false, 1⟩ (reportlessFetcher f) (fun _ => false) (fuel + 1)
        ⟨P, ce, 999, acc, bi⟩ =
      (match catLoop ⟨none, false, 1⟩ (reportlessFetcher f) (fun _ => false) fuel
          ⟨P + 5, 0, 999, acc ++ (List.range' P 5).flatMap f, bi + 1⟩ with
       | none => none
       | some (res, evs) =>
         some (res, Ev.batch (List.range' P 5) 1 ::
           Ev.saveProgress (P + 5 + 5 - 1)
             (acc ++ (List.range' P 5).flatMap f).length :: evs)) := by
  have hx : ∃ p ∈ List.range' P 5, (reportlessFetcher f 0 p).props ≠ [] :=
    ⟨P, List.mem_range'_1.mpr ⟨le_rfl, by omega⟩, by
      simpa [reportlessFetcher] using hne P hP1 hPk⟩
  have hrb := runBatch_success (reportlessFetcher f) (List.range' P 5) P 999 0 2 hx
  rw [reportless_sortBatch] at hrb
  obtain ⟨hest, hprops⟩ := reportless_batch_facts f P 999 0
  have hnotempty := reportless_not_all_empty f P k hP1 hPk hne 999 0
  have h5 : (List.range' P 5).isEmpty = false := rfl
  simp only [catLoop, pagesToScrape_sentinel]
  rw [hrb]
  simp only [h5, hest, hprops, Bool.false_eq_true, if_false, hnotempty]
  simp [hnotempty]

theorem reportless_all_empty {α : Type} (f : Nat → List α) (k : Nat)
    (hemp : ∀ p, k < p → f p = []) (P : Nat) (hPk : k < P) :
    ∀ (a : Nat) (p : Nat), p ∈ List.range' P 5 →
      (reportlessFetcher f a p).props = [] := by
  intro a p hp
  have hbounds := List.mem_range'_1.mp hp
  exact hemp p (by omega)

theorem catLoop_step_empty_continue {α : Type} (f : Nat → List α) (k : Nat)
    (hemp : ∀ p, k < p → f p = [])
    (P fuel bi : Nat) (acc : List α) (hPk : k < P) :
    ∃ att, catLoop ⟨none, false, 1⟩ (reportlessFetcher f) (fun _ => false) (fuel + 1)
        ⟨P, 0, 999, acc, bi⟩ =
      (match catLoop ⟨none, false, 1⟩ (reportlessFetcher f) (fun _ => false) fuel
          ⟨P + 5, 1, 999, acc, bi + 1⟩ with
       | none => none
       | some (res, evs) =>
         some (res, Ev.batch (List.range' P 5) att ::
           Ev.saveProgress (P + 5 + 5 - 1) acc.length :: evs)) := by
  refine ⟨(runBatch (reportlessFetcher f) (List.range' P 5) P 999 0 2).attempts, ?_⟩
  obtain ⟨hadd, hest, hempty⟩ :=
    runBatch_all_empty (reportlessFetcher f) (List.range' P 5) P 2 999 0
      (fun a p hp => reportless_all_empty f k hemp P hPk a p hp)
  have h5 : (List.range' P 5).isEmpty = false := rfl
  simp only [catLoop, pagesToScrape_sentinel]
  simp [h5, hadd, hest, hempty]

theorem catLoop_step_empty_break {α : Type} (f : Nat → List α) (k : Nat)
    (hemp : ∀ p, k < p → f p = [])
    (P fuel bi : Nat) (acc : List α) (hPk : k < P) :
    ∃ att, catLoop ⟨none, false, 1⟩ (reportlessFetcher f) (fun _ => false) (fuel + 1)
        ⟨P, 1, 999, acc, bi⟩ =
      some (acc, Ev.batch (List.range' P 5) att ::
        finalEvents ⟨none, false, 1⟩ P acc) := by
  refine ⟨(runBatch (reportlessFetcher f) (List.range' P 5) P 999 0 2).attempts, ?_⟩
  obtain ⟨hadd, hest, hempty⟩ :=
    runBatch_all_empty (reportlessFetcher f) (List.range' P 5) P 2 999 0
      (fun a p hp => reportless_all_empty f k hemp P hPk a p hp)
  have h5 : (List.range' P 5).isEmpty = false := rfl
  simp only [catLoop, pagesToScrape_sentinel]
  simp [h5, hadd, hest, hempty]

theorem catLoop_tail_empty {α : Type} (f : Nat → List α) (k : Nat)
    (hemp : ∀ p, k < p → f p = []) (P bi fuel : Nat) (acc : List α) (hP : k < P)
    (hfuel : 2 ≤ fuel) :
    ∃ evs, catLoop ⟨none, false, 1⟩ (reportlessFetcher f) (fun _ => false) fuel
        ⟨P, 0, 999, acc, bi⟩ = some (acc, evs) ∧
      batchesOf evs = [List.range' P 5, List.range' (P + 5) 5] := by
  obtain ⟨fu, rfl⟩ : ∃ fu, fuel = fu + 1 + 1 := ⟨fuel - 2, by omega⟩
  obtain ⟨att1, h1⟩ := catLoop_step_empty_continue f k hemp P (fu + 1) bi acc hP
  obtain ⟨att2, h2⟩ := catLoop_step_empty_break f k hemp (P + 5) fu (bi + 1) acc
    (by omega)
  rw [h1, h2]
  refine ⟨_, rfl, ?_⟩
  simp [batchesOf, batchesOf_finalEvents]

theorem flatMap_range'_split {α : Type} (f : Nat → List α) (P m n : Nat) :
    (List.range' P (n + m)).flatMap f =
      (List.range' P m).flatMap f ++ (List.range' (P + m) n).flatMap f := by
  rw [← List.range'_append P m n 1, List.flatMap_append]
  simp

theorem map_range'_shift (P m : Nat) :
    (List.range (m + 1)).map (fun i => List.range' (P + 5 * i) 5) =
      List.range' P 5 ::
        (List.range m).map (fun i => List.range' (P + 5 + 5 * i) 5) := by
  rw [List.range_succ_eq_map, List.map_cons, List.map_map]
  congr 1
  · apply List.map_congr_left
    intro i _
    simp only [Function.comp]
    congr 1
    omega

theorem catLoop_run_from {α : Type} (f : Nat → List α) (k : Nat)
    (hne : ∀ p, 1 ≤ p → p ≤ k → f p ≠ []) (hemp : ∀ p, k < p → f p = []) :
    ∀ (n P bi ce fuel : Nat) (acc : List α), 1 ≤ P → P ≤ k → k < P + 5 * n →
      n + 2 ≤ fuel →
    ∃ evs, catLoop ⟨none, false, 1⟩ (reportlessFetcher f) (fun _ => false) fuel
        ⟨P, ce, 999, acc, bi⟩ =
        some (acc ++ (List.range' P (k + 1 - P)).flatMap f, evs) ∧
      batchesOf evs = (List.range ((k - P) / 5 + 3)).map
        (fun i => List.range' (P + 5 * i) 5) := by
  intro n
  induction n with
  | zero => intro P bi ce fuel acc hP1 hPk hkn hfuel; omega
  | succ n ih =>
    intro P bi ce fuel acc hP1 hPk hkn hfuel
    obtain ⟨fu, rfl⟩ : ∃ fu, fuel = fu + 1 := ⟨fuel - 1, by omega⟩
    rw [catLoop_step_nonempty f k hne P ce fu bi acc hP1 hPk]
    by_cases hnext : P + 5 ≤ k
    · have hsplit : k + 1 - P = (k + 1 - (P + 5)) + 5 := by omega
      rw [hsplit, flatMap_range'_split f P 5 (k + 1 - (P + 5)),
        ← List.append_assoc]
      obtain ⟨evs', heq, hbatch⟩ := ih (P + 5) (bi + 1) 0 fu
        (acc ++ (List.range' P 5).flatMap f) (by omega) hnext (by omega) (by omega)
      simp only [heq]
      refine ⟨_, rfl, ?_⟩
      have hdiv : (k - P) / 5 + 3 = ((k - (P + 5)) / 5 + 3) + 1 := by omega
      simp only [batchesOf]
      rw [hbatch, hdiv, map_range'_shift P ((k - (P + 5)) / 5 + 3)]
    · have hflat : (List.range' P 5).flatMap f =
          (List.range' P (k + 1 - P)).flatMap f := by
        have hsplit : (5 : Nat) = (5 - (k + 1 - P)) + (k + 1 - P) := by omega
        have hkp : P + (k + 1 - P) = k + 1 := by omega
        rw [hsplit, flatMap_range'_split f P (k + 1 - P) (5 - (k + 1 - P)), hkp]
        have hnil : (List.range' (k + 1) (5 - (k + 1 - P))).flatMap f = [] := by
          rw [List.flatMap_eq_nil_iff]
          intro p hp
          have := List.mem_range'_1.mp hp
          exact hemp p (by omega)
        rw [hnil, List.append_nil]
      rw [← hflat]
      obtain ⟨evs', heq, hbatch⟩ := catLoop_tail_empty f k hemp (P + 5) (bi + 1) fu
        (acc ++ (List.range' P 5).flatMap f) (by omega) (by omega)
      simp only [heq]
      refine ⟨_, rfl, ?_⟩
      simp only [batchesOf]
      rw [hbatch,
        show (k - P) / 5 + 3 = (k - P) / 5 + 2 + 1 from by omega,
        map_range'_shift P ((k - P) / 5 + 2),
        show (k - P) / 5 + 2 = (k - P) / 5 + 1 + 1 from by omega,
        map_range'_shift (P + 5) ((k - P) / 5 + 1),
        show (k - P) / 5 + 1 = 0 + 1 from by omega,
        map_range'_shift (P + 5 + 5) 0]
      simp

/-- C2: for a category harvest whose fetcher yields records on pages
1..k (k at least 1) and nothing on any later page, never reporting a
concrete total (so the estimate stays at the 999 sentinel), with no
max-pages ceiling and no interruption: the loop terminates (any fuel of
at least k/5 + 3 iterations suffices), returns exactly the records of
the non-empty pages in ascending page order, dispatches exactly
(k+4)/5 + 2 batches of 5 consecutive pages, of which the last two are
fully empty (that is how the consecutive-empty-batch counter reaches 2
and ends the category) and every earlier one contains a page with
records (which resets the counter to 0). -/
theorem C2_end_of_data_termination {α : Type} (k : Nat) (hk : 1 ≤ k)
    (f : Nat → List α)
    (hne : ∀ p, 1 ≤ p → p ≤ k → f p ≠ [])
    (hemp : ∀ p, k < p → f p = [])
    (fuel : Nat) (hfuel : k / 5 + 3 ≤ fuel) :
    ∃ evs, scrape_city_property_type ⟨none, false, 1⟩ (reportlessFetcher f)
        (fun _ => false) fuel =
        some ((List.range' 1 k).flatMap f, evs) ∧
      batchesOf evs = (List.range ((k + 4) / 5 + 2)).map
        (fun i => List.range' (1 + 5 * i) 5) ∧
      (∀ p ∈ List.range' (1 + 5 * ((k + 4) / 5)) 10, f p = []) ∧
      (∀ i, i < (k + 4) / 5 → ∃ p ∈ List.range' (1 + 5 * i) 5, f p ≠ []) := by
  obtain ⟨evs, heq, hbatch⟩ := catLoop_run_from f k hne hemp (k / 5 + 1) 1 0 0 fuel
    [] le_rfl hk (by omega) (by omega)
  refine ⟨evs, ?_, ?_, ?_, ?_⟩
  · simpa [scrape_city_property_type] using heq
  · rw [hbatch]
    congr 2
    omega
  · intro p hp
    have hb := List.mem_range'_1.mp hp
    exact hemp p (by omega)
  · intro i hi
    refine ⟨1 + 5 * i, List.mem_range'_1.mpr ⟨le_rfl, by omega⟩, ?_⟩
    exact hne (1 + 5 * i) (by omega) (by omega)

/-- Witness for C2: the spec's P3 scenario, k = 7 — the run returns
exactly the records of pages 1-7. -/
theorem C2_end_of_data_termination_witness :
    (scrape_city_property_type ⟨none, false, 1⟩ (reportlessFetcher recs7)
        (fun _ => false) 4).map (fun r => r.1) =
      some ((List.range' 1 7).flatMap recs7) := by
  obtain ⟨evs, heq, -⟩ := C2_end_of_data_termination 7 (by norm_num) recs7
    (fun p h1 h2 => by simp [recs7, h1, h2])
    (fun p h => by
      have hnot : ¬(1 ≤ p ∧ p ≤ 7) := by omega
      simp [recs7, hnot]) 4 (by norm_num)
  rw [heq]
  rfl

end Scraper
